import Mathlib

/-!
Shallow embedding of `deslib/des/des_mi.py` (DES-MI: dynamic ensemble
selection for multi-class imbalanced datasets) and proofs about its
competence estimation, selection, aggregation and parameter validation.

Arrays are modelled as lists (matrices as lists of rows); numpy float
arithmetic is modelled over `ℝ`; hyperparameter validation, which only
compares numbers, is modelled over `ℚ`.
-/

namespace DESMI

/-- Python `int()` applied to a rational value: truncation toward zero. -/
def pyInt (q : ℚ) : ℤ := if 0 ≤ q then ⌊q⌋ else ⌈q⌉

/-- error classes raised during parameter validation: Python's `ValueError`
and `TypeError` raised by the checks in `des_mi.py` itself, and the spec's
`UnsupportedCapability` error for a soft-voting pool that cannot produce
probability estimates (spec sections 4.1 and 7). -/
inductive PyError : Type
  | valueError : PyError
  | typeError : PyError
  | unsupportedCapability : PyError
  deriving DecidableEq

/-- The fit-time state of a `DESMI` estimator: hyperparameters together with
the read-only tables established at fit time (`DSEL_target_` holds the DSEL
true labels, `DSEL_processed_` holds the per-DSEL-sample, per-classifier
correctness flags). -/
structure Model where
  k : ℕ
  nClassifiers : ℕ
  nClasses : ℕ
  N : ℕ
  alpha : ℝ
  DFP : Bool
  voting : String
  DSEL_target : List ℕ
  DSEL_processed : List (List Bool)

/-- `np.bincount`: entry `c` counts the occurrences of `c` in the input; the
length is one more than the maximum input value (`0` for an empty input). -/
def bincount (l : List ℕ) : List ℕ :=
  (List.range (l.foldr (fun a b => max (a + 1) b) 0)).map fun c => l.count c

/-- raw neighbor weight from `estimate_competence`:
`weight = 1. / (1 + np.exp(self.alpha * num))`. -/
noncomputable def rawWeight (alpha : ℝ) (freq : ℕ) : ℝ :=
  1 / (1 + Real.exp (alpha * freq))

/-- raw weights of one query sample's row of `competence_region`:
`targets = self.DSEL_target_[competence_region]`,
`num = class_frequency[targets]`,
`weight = 1. / (1 + np.exp(self.alpha * num))`, for one row. -/
noncomputable def rowRawWeights (s : Model) (row : List ℕ) : List ℝ :=
  row.map fun j =>
    rawWeight s.alpha ((bincount s.DSEL_target).getD (s.DSEL_target.getD j 0) 0)

/-- sklearn `normalize(w, norm='l1')` applied to one row: each entry is
divided by the row's sum of absolute values; a row of norm `0` is left
unchanged (sklearn replaces a zero norm by `1`). -/
noncomputable def l1normalize (ws : List ℝ) : List ℝ :=
  ws.map fun w =>
    w / (if (ws.map fun x => |x|).sum = 0 then 1 else (ws.map fun x => |x|).sum)

/-- entry of `self.DSEL_processed_[j, i]` (the 0/1 correctness flag of
classifier `i` on DSEL sample `j`), as the float numpy produces when the
boolean table is used in arithmetic. -/
def correctFlag (s : Model) (j i : ℕ) : ℝ :=
  if (s.DSEL_processed.getD j []).getD i false then 1 else 0

/-- one row of the competence matrix of `estimate_competence`:
`correct_num = self.DSEL_processed_[competence_region, :]` and
`competence = np.sum(correct_num * weight[:, :, np.newaxis], axis=1)`,
for a single query sample. -/
noncomputable def competenceRow (s : Model) (row : List ℕ) : List ℝ :=
  (List.range s.nClassifiers).map fun i =>
    (List.zipWith (fun j w => correctFlag s j i * w) row
      (l1normalize (rowRawWeights s row))).sum

/-- `DESMI.estimate_competence`: the `distances` and `predictions` arguments
appear in the signature but are never read by the body. -/
noncomputable def estimate_competence (s : Model) (region : List (List ℕ))
    (distances : Option (List (List ℝ))) (predictions : Option (List (List ℕ))) :
    List (List ℝ) :=
  region.map fun row => competenceRow s row

/-- the index-comparison relation realizing `np.argsort` on a row `l`:
indices are ordered by their value in `l`, with ties ordered by original
position (the behavior of a stable ascending sort by value). -/
def argRel {α : Type} [LinearOrder α] [Zero α] (l : List α) (i j : ℕ) : Prop :=
  l.getD i 0 < l.getD j 0 ∨ (l.getD i 0 = l.getD j 0 ∧ i ≤ j)

instance argRelDecidable {α : Type} [LinearOrder α] [Zero α] (l : List α) :
    DecidableRel (argRel l) := fun i j => by
  unfold argRel
  infer_instance

instance argRelTotal {α : Type} [LinearOrder α] [Zero α] (l : List α) :
    IsTotal ℕ (argRel l) where
  total i j := by
    rcases lt_trichotomy (l.getD i 0) (l.getD j 0) with h | h | h
    · exact Or.inl (Or.inl h)
    · rcases Nat.le_total i j with hij | hij
      · exact Or.inl (Or.inr ⟨h, hij⟩)
      · exact Or.inr (Or.inr ⟨h.symm, hij⟩)
    · exact Or.inr (Or.inl h)

instance argRelTrans {α : Type} [LinearOrder α] [Zero α] (l : List α) :
    IsTrans ℕ (argRel l) where
  trans i j k hij hjk := by
    rcases hij with hij | ⟨hij, hij2⟩
    · rcases hjk with hjk | ⟨hjk, _⟩
      · exact Or.inl (hij.trans hjk)
      · exact Or.inl (hjk ▸ hij)
    · rcases hjk with hjk | ⟨hjk, hjk2⟩
      · exact Or.inl (hij ▸ hjk)
      · exact Or.inr ⟨hij.trans hjk, hij2.trans hjk2⟩

/-- `np.argsort` on one row, modelled deterministically as sorting the index
list `[0, ..., len-1]` by value with ties kept in original order. -/
def argsort {α : Type} [LinearOrder α] [Zero α] (l : List α) :
    List ℕ :=
  List.insertionSort (argRel l) (List.range l.length)

/-- one row of `DESMI.select`:
`selected_classifiers = np.argsort(competences, axis=1)` followed by
`selected_classifiers[:, ::-1][:, 0:self.N_]`. -/
def selectRow {α : Type} [LinearOrder α] [Zero α] (N : ℕ)
    (row : List α) : List ℕ :=
  ((argsort row).reverse).take N

/-- `DESMI.select` on a 2-D competence matrix. -/
def selectMatrix {α : Type} [LinearOrder α] [Zero α] (N : ℕ)
    (cs : List (List α)) : List (List ℕ) :=
  cs.map fun row => selectRow N row

/-- `DESMI.select` on a 1-D competence vector: the source first promotes it
to a single-row matrix (`competences.reshape(1, -1)`). -/
def selectVec {α : Type} [LinearOrder α] [Zero α] (N : ℕ)
    (v : List α) : List (List ℕ) :=
  selectMatrix N [v]

/-- `np.argmax` on one row: the smallest position attaining the maximum
value (numpy returns the first maximal entry). -/
def argmaxIdx {α : Type} [LinearOrder α] [Zero α] : List α → ℕ
  | [] => 0
  | [_] => 0
  | a :: b :: rest =>
    if a < (b :: rest).getD (argmaxIdx (b :: rest)) 0 then argmaxIdx (b :: rest) + 1
    else 0

/-- Modelled from the spec: `deslib.util.aggregation.sum_votes_per_class` is
imported by the source but its file is not under `src/`; per the spec it
tallies "votes per class (a per-sample histogram over `n_classes`)". This is
the histogram for one sample's list of votes. -/
def sum_votes_per_class (votes : List ℕ) (nClasses : ℕ) : List ℕ :=
  (List.range nClasses).map fun c => votes.count c

/-- numpy fancy indexing `row[idxs]`: gather the entries of `row` at the
positions listed in `idxs`. -/
def gatherRow {α : Type} (row : List α) (idxs : List ℕ) (d : α) : List α :=
  idxs.map fun j => row.getD j d

/-- `np.mean(ensemble_proba, axis=1)` for one sample: the arithmetic mean of
the selected classifiers' probability vectors, class by class. -/
noncomputable def meanRows (ps : List (List ℝ)) (nClasses : ℕ) : List ℝ :=
  (List.range nClasses).map fun c => (ps.map fun p => p.getD c 0).sum / ps.length

/-- element-wise product `accuracy * DFP_mask` of two matrices. -/
noncomputable def maskMul (a m : List (List ℝ)) : List (List ℝ) :=
  List.zipWith (fun ra rm => List.zipWith (fun x y => x * y) ra rm) a m

/-- the selected-classifier matrix computed inside `predict_proba_with_ds`:
competences from `estimate_competence`, multiplied element-wise by the DFP
mask when `self.DFP` is set, then passed to `select`. -/
noncomputable def selectedInPredict (s : Model) (region : List (List ℕ))
    (DFP_mask : Option (List (List ℝ))) : List (List ℕ) :=
  selectMatrix s.N
    (if s.DFP then
      maskMul (estimate_competence s region none none) (DFP_mask.getD [])
    else estimate_competence s region none none)

/-- hard-voting branch of `predict_proba_with_ds` for one sample:
`votes = predictions[i, selected]`, `votes = sum_votes_per_class(votes,
n_classes)`, `predicted_proba = votes / votes.sum()`. -/
noncomputable def hardRow (s : Model) (predsRow : List ℕ) (selRow : List ℕ) :
    List ℝ :=
  (sum_votes_per_class (gatherRow predsRow selRow 0) s.nClasses).map fun v =>
    (Nat.cast v : ℝ) /
      (Nat.cast (sum_votes_per_class (gatherRow predsRow selRow 0) s.nClasses).sum : ℝ)

/-- soft-voting branch of `predict_proba_with_ds` for one sample:
`ensemble_proba = probabilities[i, selected, :]`,
`predicted_proba = np.mean(ensemble_proba, axis=1)`. -/
noncomputable def softRow (s : Model) (probRow : List (List ℝ)) (selRow : List ℕ) :
    List ℝ :=
  meanRows (gatherRow probRow selRow []) s.nClasses

/-- `DESMI.predict_proba_with_ds`. -/
noncomputable def predict_proba_with_ds (s : Model)
    (predictions : Option (List (List ℕ)))
    (probabilities : Option (List (List (List ℝ))))
    (region : List (List ℕ)) (distances : Option (List (List ℝ)))
    (DFP_mask : Option (List (List ℝ))) : List (List ℝ) :=
  if s.voting = "hard" then
    List.zipWith (fun pr sr => hardRow s pr sr) (predictions.getD [])
      (selectedInPredict s region DFP_mask)
  else
    List.zipWith (fun pr sr => softRow s pr sr) (probabilities.getD [])
      (selectedInPredict s region DFP_mask)

/-- `DESMI.classify_with_ds`:
`proba = self.predict_proba_with_ds(...)` then
`predicted_label = proba.argmax(axis=1)`. -/
noncomputable def classify_with_ds (s : Model)
    (predictions : Option (List (List ℕ)))
    (probabilities : Option (List (List (List ℝ))))
    (region : List (List ℕ)) (distances : Option (List (List ℝ)))
    (DFP_mask : Option (List (List ℝ))) : List ℕ :=
  (predict_proba_with_ds s predictions probabilities region distances
    DFP_mask).map fun r => argmaxIdx r

/-- The state examined by `DESMI._validate_parameters`: the hyperparameters
it checks itself, with `alphaIsFloat` recording whether the Python value
bound to `alpha` is a floating-point object
(`isinstance(self.alpha, np.float)`); `poolSupportsProba` recording whether
every base classifier in the pool implements `predict_proba`; and
`baseError` the outcome of the generic base-class validation. -/
structure Params where
  nClassifiers : ℕ
  pct_accuracy : ℚ
  alpha : ℚ
  alphaIsFloat : Bool
  voting : String
  poolSupportsProba : Bool
  baseError : Option PyError

/-- Modelled from the spec: `BaseDS._validate_parameters`, invoked first via
`super(DESMI, self)._validate_parameters()`, lives in `deslib/base.py`,
which is not under `src/`; the spec treats this generic fit/validate
scaffolding as an external collaborator, so it is abstracted as the error it
raises, if any (`none` when the base checks pass). -/
def base_validate_parameters (p : Params) : Option PyError := p.baseError

/-- Modelled from the spec: `self._check_predict_proba()`, called when
`voting == 'soft'`, lives in `deslib/base.py`, which is not under `src/`;
per the spec, soft voting "requires that the base classifier pool supports
probability output — failing with UnsupportedCapability if not", so it is
abstracted as the capability flag of the pool. -/
def check_predict_proba (p : Params) : Bool := p.poolSupportsProba

/-- `self.N_ = int(self.n_classifiers_ * self.pct_accuracy)`. -/
def computeN (p : Params) : ℤ := pyInt ((p.nClassifiers : ℚ) * p.pct_accuracy)

/-- the checks written in `DESMI._validate_parameters` itself (after the
`super()` call), in source order, each raising `ValueError` or `TypeError`;
when `voting == 'soft'` the pool must additionally support probability
output; on success the computed `N_` is kept on the estimator. -/
def validate_rest (p : Params) : Except PyError ℤ :=
  if computeN p ≤ 0 then Except.error PyError.valueError
  else if p.alpha ≤ 0 then Except.error PyError.valueError
  else if p.alphaIsFloat = false then Except.error PyError.typeError
  else if p.pct_accuracy ≤ 0 ∨ 1 < p.pct_accuracy then Except.error PyError.valueError
  else if ¬ (p.voting = "soft" ∨ p.voting = "hard") then Except.error PyError.valueError
  else if p.voting = "soft" ∧ check_predict_proba p = false then
    Except.error PyError.unsupportedCapability
  else Except.ok (computeN p)

/-- `DESMI._validate_parameters`: first the inherited base-class validation
(any error it raises aborts preparation), then the DESMI-specific checks. -/
def validate_parameters (p : Params) : Except PyError ℤ :=
  match base_validate_parameters p with
  | some e => Except.error e
  | none => validate_rest p

/-! ### Helper lemmas -/

lemma rawWeight_pos (alpha : ℝ) (freq : ℕ) : 0 < rawWeight alpha freq := by
  unfold rawWeight
  have h := Real.exp_pos (alpha * freq)
  positivity

lemma rowRawWeights_pos (s : Model) (row : List ℕ) :
    ∀ w ∈ rowRawWeights s row, 0 < w := by
  intro w hw
  rcases List.mem_map.mp hw with ⟨j, _, rfl⟩
  exact rawWeight_pos _ _

lemma sum_map_div (l : List ℝ) (d : ℝ) :
    (l.map fun x => x / d).sum = l.sum / d := by
  induction l with
  | nil => simp
  | cons a t ih => simp [ih, add_div]

lemma abs_sum_nonneg (ws : List ℝ) : 0 ≤ (ws.map fun x => |x|).sum :=
  List.sum_nonneg fun a ha => by
    rcases List.mem_map.mp ha with ⟨b, _, rfl⟩
    exact abs_nonneg b

lemma l1normalize_sum_eq_one (ws : List ℝ) (hpos : ∀ w ∈ ws, 0 < w)
    (hne : ws ≠ []) : (l1normalize ws).sum = 1 := by
  have habs : ws.map (fun x => |x|) = ws := by
    rw [List.map_congr_left fun a ha => abs_of_pos (hpos a ha)]
    exact List.map_id ws
  have hsum : 0 < ws.sum := List.sum_pos ws hpos hne
  unfold l1normalize
  rw [habs, if_neg (ne_of_gt hsum), sum_map_div, div_self (ne_of_gt hsum)]

lemma l1normalize_nonneg (ws : List ℝ) (hpos : ∀ w ∈ ws, 0 < w) :
    ∀ w ∈ l1normalize ws, 0 ≤ w := by
  intro w hw
  rcases List.mem_map.mp hw with ⟨x, hx, rfl⟩
  have hd : (0:ℝ) < if (ws.map fun x => |x|).sum = 0 then 1
      else (ws.map fun x => |x|).sum := by
    split
    · exact one_pos
    · next h => exact lt_of_le_of_ne (abs_sum_nonneg ws) (Ne.symm h)
  exact div_nonneg (hpos x hx).le hd.le

lemma correctFlag_nonneg (s : Model) (j i : ℕ) : 0 ≤ correctFlag s j i := by
  unfold correctFlag
  split <;> norm_num

lemma correctFlag_le_one (s : Model) (j i : ℕ) : correctFlag s j i ≤ 1 := by
  unfold correctFlag
  split <;> norm_num

lemma sum_zip_flag_nonneg (s : Model) (i : ℕ) (row : List ℕ) (ws : List ℝ)
    (hws : ∀ w ∈ ws, 0 ≤ w) :
    0 ≤ (List.zipWith (fun j w => correctFlag s j i * w) row ws).sum := by
  induction row generalizing ws with
  | nil => simp
  | cons a t ih =>
    cases ws with
    | nil => simp
    | cons w tw =>
      simp only [List.zipWith_cons_cons, List.sum_cons]
      have h1 : 0 ≤ correctFlag s a i * w :=
        mul_nonneg (correctFlag_nonneg s a i) (hws w (List.mem_cons_self w tw))
      have h2 := ih tw fun x hx => hws x (List.mem_cons_of_mem w hx)
      linarith

lemma sum_zip_flag_le (s : Model) (i : ℕ) (row : List ℕ) (ws : List ℝ)
    (hws : ∀ w ∈ ws, 0 ≤ w) :
    (List.zipWith (fun j w => correctFlag s j i * w) row ws).sum ≤ ws.sum := by
  induction row generalizing ws with
  | nil =>
    simpa using List.sum_nonneg hws
  | cons a t ih =>
    cases ws with
    | nil => simp
    | cons w tw =>
      simp only [List.zipWith_cons_cons, List.sum_cons]
      have hw : 0 ≤ w := hws w (List.mem_cons_self w tw)
      have h1 : correctFlag s a i * w ≤ w :=
        mul_le_of_le_one_left hw (correctFlag_le_one s a i)
      have h2 := ih tw fun x hx => hws x (List.mem_cons_of_mem w hx)
      linarith

lemma argsort_perm {α : Type} [LinearOrder α] [Zero α] (l : List α) :
    List.Perm (argsort l) (List.range l.length) :=
  List.perm_insertionSort _ _

lemma argsort_length {α : Type} [LinearOrder α] [Zero α] (l : List α) :
    (argsort l).length = l.length :=
  (argsort_perm l).length_eq.trans (List.length_range _)

lemma argsort_nodup {α : Type} [LinearOrder α] [Zero α] (l : List α) :
    (argsort l).Nodup :=
  (argsort_perm l).nodup_iff.mpr (List.nodup_range _)

lemma argsort_sorted {α : Type} [LinearOrder α] [Zero α] (l : List α) :
    (argsort l).Pairwise (argRel l) :=
  List.sorted_insertionSort _ _

lemma argsort_mem {α : Type} [LinearOrder α] [Zero α] (l : List α) {j : ℕ}
    (hj : j ∈ argsort l) : j < l.length :=
  List.mem_range.mp ((argsort_perm l).mem_iff.mp hj)

lemma selectRow_sublist {α : Type} [LinearOrder α] [Zero α] (N : ℕ)
    (row : List α) : List.Sublist (selectRow N row) ((argsort row).reverse) :=
  List.take_sublist _ _

lemma selectRow_mem {α : Type} [LinearOrder α] [Zero α] (N : ℕ) (row : List α)
    {j : ℕ} (hj : j ∈ selectRow N row) : j < row.length :=
  argsort_mem row (List.mem_reverse.mp ((selectRow_sublist N row).mem hj))

lemma selectRow_length {α : Type} [LinearOrder α] [Zero α] (N : ℕ)
    (row : List α) (hN : N ≤ row.length) : (selectRow N row).length = N := by
  unfold selectRow
  rw [List.length_take, List.length_reverse, argsort_length]
  omega

lemma selectRow_nodup {α : Type} [LinearOrder α] [Zero α] (N : ℕ)
    (row : List α) : (selectRow N row).Nodup :=
  (List.nodup_reverse.mpr (argsort_nodup row)).sublist (selectRow_sublist N row)

lemma selectRow_pairwise {α : Type} [LinearOrder α] [Zero α] (N : ℕ)
    (row : List α) :
    (selectRow N row).Pairwise (fun a b => argRel row b a) :=
  (List.pairwise_reverse.mpr (argsort_sorted row)).sublist
    (selectRow_sublist N row)

lemma selectRow_desc {α : Type} [LinearOrder α] [Zero α] (N : ℕ)
    (row : List α) :
    (selectRow N row).Pairwise (fun a b => row.getD b 0 ≤ row.getD a 0) :=
  (selectRow_pairwise N row).imp fun h => by
    rcases h with h | ⟨h, _⟩
    · exact h.le
    · exact h.le

lemma selectRow_ties_desc {α : Type} [LinearOrder α] [Zero α] (N : ℕ)
    (row : List α) :
    (selectRow N row).Pairwise
      (fun a b => row.getD a 0 = row.getD b 0 → b < a) := by
  have hcomb := (selectRow_pairwise N row).and (selectRow_nodup N row)
  exact hcomb.imp fun {a b} h heq => by
    rcases h with ⟨hrel, hne⟩
    rcases hrel with hlt | ⟨_, hle⟩
    · exact absurd (heq ▸ hlt) (lt_irrefl _)
    · exact lt_of_le_of_ne hle (Ne.symm hne)

lemma countP_lt_length {α : Type} (p : α → Bool) (l : List α) {a : α}
    (ha : a ∈ l) (hpa : ¬ p a) : l.countP p < l.length := by
  rcases Nat.lt_or_ge (l.countP p) l.length with h | h
  · exact h
  · have heq : l.countP p = l.length :=
      le_antisymm (List.countP_le_length p) h
    exact absurd (List.countP_eq_length.mp heq a ha) hpa

lemma selectRow_pos (N : ℕ) (row : List ℝ)
    (h : N ≤ (List.range row.length).countP fun i => decide (0 < row.getD i 0)) :
    ∀ j ∈ selectRow N row, 0 < row.getD j 0 := by
  intro j hj
  by_contra hneg
  set p : ℕ → Bool := fun i => decide (0 < row.getD i 0) with hp
  have hpj : ¬ p j = true := by
    rw [hp]
    simpa using hneg
  have hperm : List.Perm ((argsort row).reverse) (List.range row.length) :=
    ((argsort row).reverse_perm).trans (argsort_perm row)
  have htotal : N ≤ ((argsort row).reverse).countP p := by
    rw [hperm.countP_eq]
    exact h
  have hEq : selectRow N row = ((argsort row).reverse).take N := rfl
  have hsplit : ((argsort row).reverse).countP p =
      (selectRow N row).countP p +
        (((argsort row).reverse).drop N).countP p := by
    rw [hEq]
    conv_lhs => rw [← List.take_append_drop N ((argsort row).reverse)]
    exact List.countP_append _ _ _
  have htake_lt : (selectRow N row).countP p < (selectRow N row).length :=
    countP_lt_length p _ hj hpj
  have htake_len : (selectRow N row).length ≤ N := by
    unfold selectRow
    exact List.length_take_le _ _
  have hdrop_pos : 0 < (((argsort row).reverse).drop N).countP p := by omega
  rcases List.countP_pos_iff.mp hdrop_pos with ⟨b, hb, hpb⟩
  have hpair : ((argsort row).reverse).Pairwise (fun a b => argRel row b a) :=
    List.pairwise_reverse.mpr (argsort_sorted row)
  have hrel : argRel row b j := by
    have hsp := List.pairwise_append.mp
      ((List.take_append_drop N ((argsort row).reverse)).symm ▸ hpair)
    exact hsp.2.2 j hj b hb
  have hposb : 0 < row.getD b 0 := by
    have := hpb
    rw [hp] at this
    simpa using this
  rcases hrel with hlt | ⟨heq, _⟩
  · exact hneg (hposb.trans hlt)
  · exact hneg (heq ▸ hposb)

lemma argmaxIdx_spec {α : Type} [LinearOrder α] [Zero α] :
    ∀ l : List α, l ≠ [] →
      argmaxIdx l < l.length ∧
      (∀ j < l.length, l.getD j 0 ≤ l.getD (argmaxIdx l) 0) ∧
      (∀ j < argmaxIdx l, l.getD j 0 < l.getD (argmaxIdx l) 0)
  | [], h => absurd rfl h
  | [a], _ => by
    refine ⟨by simp [argmaxIdx], ?_, ?_⟩
    · intro j hj
      have hj0 : j = 0 := Nat.lt_one_iff.mp (by simpa using hj)
      subst hj0
      simp [argmaxIdx]
    · intro j hj
      simp [argmaxIdx] at hj
  | a :: b :: rest, _ => by
    obtain ⟨ih1, ih2, ih3⟩ := argmaxIdx_spec (b :: rest) (by simp)
    by_cases hab : a < (b :: rest).getD (argmaxIdx (b :: rest)) 0
    · have heq : argmaxIdx (a :: b :: rest) = argmaxIdx (b :: rest) + 1 := by
        rw [show argmaxIdx (a :: b :: rest) =
          (if a < (b :: rest).getD (argmaxIdx (b :: rest)) 0
            then argmaxIdx (b :: rest) + 1 else 0) from rfl, if_pos hab]
      rw [heq]
      refine ⟨by simpa using ih1, ?_, ?_⟩
      · intro j hj
        cases j with
        | zero =>
          rw [List.getD_cons_zero, List.getD_cons_succ]
          exact hab.le
        | succ j' =>
          rw [List.getD_cons_succ, List.getD_cons_succ]
          exact ih2 j' (by simpa using hj)
      · intro j hj
        cases j with
        | zero =>
          rw [List.getD_cons_zero, List.getD_cons_succ]
          exact hab
        | succ j' =>
          rw [List.getD_cons_succ, List.getD_cons_succ]
          exact ih3 j' (by omega)
    · have heq : argmaxIdx (a :: b :: rest) = 0 := by
        rw [show argmaxIdx (a :: b :: rest) =
          (if a < (b :: rest).getD (argmaxIdx (b :: rest)) 0
            then argmaxIdx (b :: rest) + 1 else 0) from rfl, if_neg hab]
      rw [heq]
      refine ⟨by simp, ?_, ?_⟩
      · intro j hj
        cases j with
        | zero => simp
        | succ j' =>
          rw [List.getD_cons_succ, List.getD_cons_zero]
          have h1 := ih2 j' (by simpa using hj)
          have h2 : (b :: rest).getD (argmaxIdx (b :: rest)) 0 ≤ a :=
            not_lt.mp hab
          exact h1.trans h2
      · intro j hj
        exact absurd hj (Nat.not_lt_zero j)

lemma sum_map_add {γ M : Type} [AddCommMonoid M] (l : List γ) (f g : γ → M) :
    (l.map fun c => f c + g c).sum = (l.map f).sum + (l.map g).sum := by
  induction l with
  | nil => simp
  | cons a t ih =>
    simp only [List.map_cons, List.sum_cons, ih]
    rw [add_add_add_comm]

lemma sum_range_ite (v m : ℕ) :
    ((List.range m).map fun c => if v = c then 1 else 0).sum
      = if v < m then 1 else 0 := by
  induction m with
  | zero => simp
  | succ n ih =>
    rw [List.range_succ, List.map_append, List.sum_append, ih]
    simp only [List.map_cons, List.map_nil, List.sum_cons, List.sum_nil, add_zero]
    rcases Nat.lt_trichotomy v n with h | h | h
    · rw [if_pos h, if_neg (show v ≠ n by omega), if_pos (show v < n + 1 by omega)]
    · subst h
      rw [if_neg (lt_irrefl v), if_pos rfl, if_pos (show v < v + 1 by omega)]
    · rw [if_neg (show ¬ v < n by omega), if_neg (show v ≠ n by omega),
        if_neg (show ¬ v < n + 1 by omega)]

lemma sum_votes_sum (votes : List ℕ) (m : ℕ) :
    (sum_votes_per_class votes m).sum
      = votes.countP fun v => decide (v < m) := by
  unfold sum_votes_per_class
  induction votes with
  | nil => simp
  | cons v t ih =>
    have hcount : ∀ c : ℕ, (v :: t).count c = t.count c + if v = c then 1 else 0 := by
      intro c
      rw [List.count_cons]
      simp
    rw [List.map_congr_left fun c _ => hcount c, sum_map_add, ih, sum_range_ite,
      List.countP_cons]
    simp

lemma list_sum_comm {β γ M : Type} [AddCommMonoid M] (l1 : List β)
    (l2 : List γ) (f : β → γ → M) :
    (l1.map fun b => (l2.map fun c => f b c).sum).sum
      = (l2.map fun c => (l1.map fun b => f b c).sum).sum := by
  induction l1 with
  | nil => simp
  | cons b t ih =>
    simp only [List.map_cons, List.sum_cons, ih, List.sum_cons, ← sum_map_add]

lemma map_getD_range (p : List ℝ) :
    (List.range p.length).map (fun c => p.getD c 0) = p := by
  induction p with
  | nil => simp
  | cons a t ih =>
    rw [List.length_cons, List.range_succ_eq_map, List.map_cons, List.map_map,
      List.getD_cons_zero]
    have hfun : ((fun c => (a :: t).getD c 0) ∘ Nat.succ) = fun c => t.getD c 0 :=
      funext fun c => List.getD_cons_succ
    rw [hfun, ih]

lemma getD_zipWith_of_lt {α β γ : Type} (f : α → β → γ) (as : List α)
    (bs : List β) (q : ℕ) (hq : q < (List.zipWith f as bs).length)
    (d : γ) (da : α) (db : β) :
    (List.zipWith f as bs).getD q d = f (as.getD q da) (bs.getD q db) := by
  have h1 : q < as.length := List.lt_length_left_of_zipWith hq
  have h2 : q < bs.length := List.lt_length_right_of_zipWith hq
  rw [List.getD_eq_getElem _ _ hq, List.getD_eq_getElem _ _ h1,
    List.getD_eq_getElem _ _ h2, List.getElem_zipWith]

lemma getD_map_of_lt {α β : Type} (f : α → β) (l : List α) (q : ℕ)
    (hq : q < l.length) (d : β) (da : α) :
    (l.map f).getD q d = f (l.getD q da) := by
  rw [List.getD_eq_getElem _ _ (by simpa using hq), List.getD_eq_getElem _ _ hq,
    List.getElem_map]

lemma pyInt_eq_floor (q : ℚ) (h : 0 ≤ q) : pyInt q = ⌊q⌋ := if_pos h

lemma pyInt_le_zero_iff (q : ℚ) : pyInt q ≤ 0 ↔ ⌊q⌋ < 1 := by
  unfold pyInt
  split
  · omega
  · next h =>
    push_neg at h
    have h1 : ⌈q⌉ ≤ 0 := Int.ceil_le.mpr (by exact_mod_cast h.le)
    have h2 : ⌊q⌋ ≤ ⌈q⌉ := Int.floor_le_ceil q
    constructor
    · intro
      omega
    · intro
      exact h1

lemma sum_map_div_fn {γ : Type} (l : List γ) (f : γ → ℝ) (T : ℝ) :
    (l.map fun c => f c / T).sum = (l.map f).sum / T := by
  induction l with
  | nil => simp
  | cons a t ih => simp [ih, add_div]

lemma cast_sum_list (l : List ℕ) :
    (l.map fun v => (Nat.cast v : ℝ)).sum = (Nat.cast l.sum : ℝ) := by
  induction l with
  | nil => simp
  | cons a t ih => rw [List.map_cons, List.sum_cons, List.sum_cons, Nat.cast_add, ih]

lemma hardRow_sum (s : Model) (pr sr : List ℕ) (hne : sr ≠ [])
    (hv : ∀ j ∈ sr, pr.getD j 0 < s.nClasses) :
    (sum_votes_per_class (gatherRow pr sr 0) s.nClasses).sum = sr.length ∧
    (hardRow s pr sr).sum = 1 := by
  have hvotes : ∀ v ∈ gatherRow pr sr 0, v < s.nClasses := by
    intro v hv'
    rcases List.mem_map.mp hv' with ⟨j, hj, rfl⟩
    exact hv j hj
  have hlen : (gatherRow pr sr 0).length = sr.length := List.length_map _ _
  have hsum : (sum_votes_per_class (gatherRow pr sr 0) s.nClasses).sum
      = sr.length := by
    rw [sum_votes_sum, List.countP_eq_length.mpr fun v hv' =>
      decide_eq_true (hvotes v hv'), hlen]
  refine ⟨hsum, ?_⟩
  have hT : ((sum_votes_per_class (gatherRow pr sr 0) s.nClasses).sum : ℝ) ≠ 0 := by
    rw [hsum]
    exact_mod_cast fun h => hne (List.length_eq_zero.mp h)
  unfold hardRow
  rw [sum_map_div_fn (sum_votes_per_class (gatherRow pr sr 0) s.nClasses)
    (fun v => (Nat.cast v : ℝ))
    (Nat.cast (sum_votes_per_class (gatherRow pr sr 0) s.nClasses).sum : ℝ),
    cast_sum_list, div_self hT]

lemma softRow_sum (s : Model) (probRow : List (List ℝ)) (sr : List ℕ)
    (hne : sr ≠ []) (hj : ∀ j ∈ sr, j < probRow.length)
    (hp : ∀ p ∈ probRow, p.length = s.nClasses ∧ p.sum = 1) :
    (softRow s probRow sr).sum = 1 := by
  have hps : ∀ p ∈ gatherRow probRow sr [], p.length = s.nClasses ∧ p.sum = 1 := by
    intro p hp2
    rcases List.mem_map.mp hp2 with ⟨j, hjs, rfl⟩
    have hjl := hj j hjs
    have hmem : probRow.getD j [] ∈ probRow := by
      rw [List.getD_eq_getElem _ _ hjl]
      exact List.getElem_mem _
    exact hp _ hmem
  have hlen : (gatherRow probRow sr []).length = sr.length := List.length_map _ _
  have hlen0 : ((gatherRow probRow sr []).length : ℝ) ≠ 0 := by
    rw [hlen]
    exact_mod_cast fun h => hne (List.length_eq_zero.mp h)
  unfold softRow meanRows
  rw [sum_map_div_fn (List.range s.nClasses)
    (fun c => ((gatherRow probRow sr []).map fun p => p.getD c 0).sum)
    ((gatherRow probRow sr []).length : ℝ), list_sum_comm]
  have hinner : ∀ p ∈ gatherRow probRow sr [],
      ((List.range s.nClasses).map fun c => p.getD c 0).sum = 1 := fun p hp2 => by
    rw [← (hps p hp2).1, map_getD_range]
    exact (hps p hp2).2
  rw [List.map_congr_left hinner, List.map_const', List.sum_replicate,
    nsmul_eq_mul, mul_one, div_self hlen0]

lemma rowRawWeights_ne_nil (s : Model) (row : List ℕ) (h : row ≠ []) :
    rowRawWeights s row ≠ [] := by
  unfold rowRawWeights
  simpa using h

lemma l1norm_weights_sum_le_one (s : Model) (row : List ℕ) :
    (l1normalize (rowRawWeights s row)).sum ≤ 1 := by
  rcases eq_or_ne row [] with h | h
  · subst h
    simp [rowRawWeights, l1normalize]
  · rw [l1normalize_sum_eq_one _ (rowRawWeights_pos s row)
      (rowRawWeights_ne_nil s row h)]

/-! ### Claims -/

/-- A tiny fitted model used as a concrete instance in witnesses: one
classifier, two classes, one neighbor, hard voting. -/
def mW1 : Model :=
  { k := 1, nClassifiers := 1, nClasses := 2, N := 1, alpha := 1, DFP := false,
    voting := "hard", DSEL_target := [0], DSEL_processed := [[true]] }

/-- A variant of `mW1` with soft voting. -/
def mWS : Model :=
  { k := 1, nClassifiers := 1, nClasses := 2, N := 1, alpha := 1, DFP := false,
    voting := "soft", DSEL_target := [0], DSEL_processed := [[true]] }

/-- C1: for every query sample and classifier, the competence score returned
by `estimate_competence` equals the sum over the sample's neighbors of the
classifier's 0/1 correctness flag on that neighbor times the neighbor's
L1-normalized imbalance weight, and every competence value lies in [0, 1]. -/
theorem claim_C1 (s : Model) (region : List (List ℕ))
    (dst : Option (List (List ℝ))) (prd : Option (List (List ℕ)))
    (q i : ℕ) (hq : q < region.length) (hi : i < s.nClassifiers) :
    ((estimate_competence s region dst prd).getD q []).getD i 0
      = (List.zipWith (fun j w => correctFlag s j i * w) (region.getD q [])
          (l1normalize (rowRawWeights s (region.getD q [])))).sum ∧
    0 ≤ ((estimate_competence s region dst prd).getD q []).getD i 0 ∧
    ((estimate_competence s region dst prd).getD q []).getD i 0 ≤ 1 := by
  have hrow : (estimate_competence s region dst prd).getD q []
      = competenceRow s (region.getD q []) := by
    unfold estimate_competence
    exact getD_map_of_lt (fun row => competenceRow s row) region q hq [] []
  have hidx : (List.range s.nClassifiers).getD i 0 = i := by
    rw [List.getD_eq_getElem _ _ (by simpa using hi)]
    exact List.getElem_range _ _
  have hentry : (competenceRow s (region.getD q [])).getD i 0
      = (List.zipWith (fun j w => correctFlag s j i * w) (region.getD q [])
          (l1normalize (rowRawWeights s (region.getD q [])))).sum := by
    unfold competenceRow
    rw [getD_map_of_lt _ (List.range s.nClassifiers) i (by simpa using hi) 0 0,
      hidx]
  rw [hrow, hentry]
  have hnn := l1normalize_nonneg _ (rowRawWeights_pos s (region.getD q []))
  refine ⟨rfl, sum_zip_flag_nonneg s i _ _ hnn, ?_⟩
  exact (sum_zip_flag_le s i _ _ hnn).trans
    (l1norm_weights_sum_le_one s (region.getD q []))

theorem claim_C1_witness :
    ((estimate_competence mW1 [[0]] none none).getD 0 []).getD 0 0
      = (List.zipWith (fun j w => correctFlag mW1 j 0 * w) ([[0]].getD 0 [])
          (l1normalize (rowRawWeights mW1 ([[0]].getD 0 [])))).sum ∧
    0 ≤ ((estimate_competence mW1 [[0]] none none).getD 0 []).getD 0 0 ∧
    ((estimate_competence mW1 [[0]] none none).getD 0 []).getD 0 0 ≤ 1 :=
  claim_C1 mW1 [[0]] none none 0 0 (by decide) (by decide)

/-- C2: for every query sample, the raw neighbor weights
`1/(1+exp(alpha*class_frequency))`, once L1-normalized across the sample's
neighbors, sum to 1. -/
theorem claim_C2 (s : Model) (row : List ℕ) (hne : row ≠ []) :
    (l1normalize (rowRawWeights s row)).sum = 1 :=
  l1normalize_sum_eq_one _ (rowRawWeights_pos s row)
    (rowRawWeights_ne_nil s row hne)

theorem claim_C2_witness : (l1normalize (rowRawWeights mW1 [0])).sum = 1 :=
  claim_C2 mW1 [0] (by decide)

/-- C9: `predict_proba_with_ds` reads only the argument relevant to its
voting mode: in hard mode its output does not depend on the `probabilities`
argument, in soft mode it does not depend on the `predictions` argument. -/
theorem claim_C9 (s : Model) (preds : Option (List (List ℕ)))
    (probs1 probs2 : Option (List (List (List ℝ))))
    (preds1 preds2 : Option (List (List ℕ)))
    (probs : Option (List (List (List ℝ))))
    (region : List (List ℕ)) (dst : Option (List (List ℝ)))
    (mask : Option (List (List ℝ))) :
    (s.voting = "hard" →
      predict_proba_with_ds s preds probs1 region dst mask
        = predict_proba_with_ds s preds probs2 region dst mask) ∧
    (s.voting = "soft" →
      predict_proba_with_ds s preds1 probs region dst mask
        = predict_proba_with_ds s preds2 probs region dst mask) := by
  constructor
  · intro hv
    unfold predict_proba_with_ds
    rw [if_pos hv]
    rw [if_pos hv]
  · intro hv
    unfold predict_proba_with_ds
    rw [if_neg (show ¬ s.voting = "hard" by rw [hv]; decide)]
    rw [if_neg (show ¬ s.voting = "hard" by rw [hv]; decide)]

theorem claim_C9_witness :
    predict_proba_with_ds mW1 (some [[0]]) none [[0]] none none
      = predict_proba_with_ds mW1 (some [[0]]) (some [[[1, 0]]]) [[0]] none none ∧
    predict_proba_with_ds mWS none (some [[[1, 0]]]) [[0]] none none
      = predict_proba_with_ds mWS (some [[0]]) (some [[[1, 0]]]) [[0]] none none :=
  ⟨(claim_C9 mW1 (some [[0]]) none (some [[[1, 0]]]) none none none [[0]]
      none none).1 rfl,
    (claim_C9 mWS none none none none (some [[0]]) (some [[[1, 0]]]) [[0]]
      none none).2 rfl⟩

/-- C10: the output of `estimate_competence` is fully determined by the
competence region and the fit-time tables: the `distances` and `predictions`
arguments (present or `none`) never change the result. -/
theorem claim_C10 (s : Model) (region : List (List ℕ))
    (d1 d2 : Option (List (List ℝ))) (p1 p2 : Option (List (List ℕ))) :
    estimate_competence s region d1 p1 = estimate_competence s region d2 p2 :=
  rfl

/-- C3: `select` promotes a 1-D competence vector to a single-row matrix,
and on a matrix whose selected row has at least `N` columns it returns
exactly `N` distinct classifier indices, ordered by descending competence,
equal to the argsort-reverse-take-N reference computation. -/
theorem claim_C3 (N : ℕ) (cs : List (List ℝ)) (v : List ℝ) (q : ℕ)
    (hq : q < cs.length) (hN : N ≤ (cs.getD q []).length) :
    selectVec N v = selectMatrix N [v] ∧
    (selectMatrix N cs).getD q [] = ((argsort (cs.getD q [])).reverse).take N ∧
    ((selectMatrix N cs).getD q []).length = N ∧
    ((selectMatrix N cs).getD q []).Nodup ∧
    (∀ j ∈ (selectMatrix N cs).getD q [], j < (cs.getD q []).length) ∧
    ((selectMatrix N cs).getD q []).Pairwise
      (fun a b => (cs.getD q []).getD b 0 ≤ (cs.getD q []).getD a 0) := by
  have hrow : (selectMatrix N cs).getD q [] = selectRow N (cs.getD q []) := by
    unfold selectMatrix
    exact getD_map_of_lt _ cs q hq [] []
  rw [hrow]
  exact ⟨rfl, rfl, selectRow_length N _ hN, selectRow_nodup N _,
    fun j hj => selectRow_mem N _ hj, selectRow_desc N _⟩

theorem claim_C3_witness :
    selectVec 2 [(3 : ℝ)] = selectMatrix 2 [[(3 : ℝ)]] ∧
    (selectMatrix 2 [[(5 : ℝ), 7]]).getD 0 []
      = ((argsort ([[(5 : ℝ), 7]].getD 0 [])).reverse).take 2 ∧
    ((selectMatrix 2 [[(5 : ℝ), 7]]).getD 0 []).length = 2 ∧
    ((selectMatrix 2 [[(5 : ℝ), 7]]).getD 0 []).Nodup ∧
    (∀ j ∈ (selectMatrix 2 [[(5 : ℝ), 7]]).getD 0 [],
      j < ([[(5 : ℝ), 7]].getD 0 []).length) ∧
    ((selectMatrix 2 [[(5 : ℝ), 7]]).getD 0 []).Pairwise
      (fun a b => ([[(5 : ℝ), 7]].getD 0 []).getD b 0
        ≤ ([[(5 : ℝ), 7]].getD 0 []).getD a 0) :=
  ⟨(claim_C3 2 [[(5 : ℝ), 7]] [(3 : ℝ)] 0 (by simp) (by simp)).1,
    ((claim_C3 2 [[(5 : ℝ), 7]] [(3 : ℝ)] 0 (by simp) (by simp)).2 : _)⟩

/-- C4 counterexample: on the competence matrix `[[1, 1]]` (classifiers 0
and 1 tied) with `N = 2`, `select` returns the tied classifiers in
descending index order `[1, 0]`, not in ascending index order `[0, 1]`. -/
theorem claim_C4_counterexample :
    selectMatrix 2 [[(1 : ℚ), 1]] = [[1, 0]] ∧
    selectMatrix 2 [[(1 : ℚ), 1]] ≠ [[0, 1]] := by
  constructor
  · rfl
  · decide

/-- C4 amended: `select` orders tied classifiers among themselves by
descending original classifier index (highest index first),
deterministically: in every output row, whenever two selected indices have
equal competence, the larger index comes first. -/
theorem claim_C4_amended (N : ℕ) (cs : List (List ℝ)) (q : ℕ) :
    ((selectMatrix N cs).getD q []).Pairwise
      (fun a b => (cs.getD q []).getD a 0 = (cs.getD q []).getD b 0 → b < a) := by
  rcases Nat.lt_or_ge q cs.length with hq | hq
  · have hrow : (selectMatrix N cs).getD q [] = selectRow N (cs.getD q []) := by
      unfold selectMatrix
      exact getD_map_of_lt _ cs q hq [] []
    rw [hrow]
    exact selectRow_ties_desc N _
  · have hrow : (selectMatrix N cs).getD q [] = [] := by
      unfold selectMatrix
      exact List.getD_eq_default _ _ (by simpa using hq)
    rw [hrow]
    exact List.Pairwise.nil

/-- C5: every row of `predict_proba_with_ds` sums to 1: in hard mode the
per-sample vote histogram is divided by the total vote count, which equals
the number of selected classifiers (`N` under the normal shape contract)
whenever all selected classifiers' predicted labels lie in
`[0, n_classes)`; in soft mode the mean over the selected classifiers'
probability vectors sums to 1 provided each of them sums to 1. -/
theorem claim_C5 (s : Model) (preds : List (List ℕ))
    (probs : List (List (List ℝ))) (probsArg : Option (List (List (List ℝ))))
    (predsArg : Option (List (List ℕ))) (region : List (List ℕ))
    (dst : Option (List (List ℝ))) (mask : Option (List (List ℝ))) (q : ℕ) :
    (s.voting = "hard" →
      q < (predict_proba_with_ds s (some preds) probsArg region dst mask).length →
      (selectedInPredict s region mask).getD q [] ≠ [] →
      (∀ j ∈ (selectedInPredict s region mask).getD q [],
        (preds.getD q []).getD j 0 < s.nClasses) →
      ((sum_votes_per_class (gatherRow (preds.getD q [])
            ((selectedInPredict s region mask).getD q []) 0) s.nClasses).sum
          = ((selectedInPredict s region mask).getD q []).length ∧
        ((predict_proba_with_ds s (some preds) probsArg region dst mask).getD
          q []).sum = 1)) ∧
    (s.voting = "soft" →
      q < (predict_proba_with_ds s predsArg (some probs) region dst mask).length →
      (selectedInPredict s region mask).getD q [] ≠ [] →
      (∀ j ∈ (selectedInPredict s region mask).getD q [],
        j < (probs.getD q []).length) →
      (∀ p ∈ probs.getD q [], p.length = s.nClasses ∧ p.sum = 1) →
      ((predict_proba_with_ds s predsArg (some probs) region dst mask).getD
        q []).sum = 1) := by
  constructor
  · intro hv hq hne hvalid
    rw [show predict_proba_with_ds s (some preds) probsArg region dst mask
        = List.zipWith (fun pr sr => hardRow s pr sr) preds
          (selectedInPredict s region mask) by
      unfold predict_proba_with_ds
      rw [if_pos hv]
      rfl] at hq ⊢
    rw [getD_zipWith_of_lt _ _ _ q hq [] [] []]
    exact hardRow_sum s _ _ hne hvalid
  · intro hv hq hne hjlt hp
    rw [show predict_proba_with_ds s predsArg (some probs) region dst mask
        = List.zipWith (fun pr sr => softRow s pr sr) probs
          (selectedInPredict s region mask) by
      unfold predict_proba_with_ds
      rw [if_neg (show ¬ s.voting = "hard" by rw [hv]; decide)]
      rfl] at hq ⊢
    rw [getD_zipWith_of_lt _ _ _ q hq [] [] []]
    exact softRow_sum s _ _ hne hjlt hp

/-- C6: `classify_with_ds` returns per sample the argmax class index of the
corresponding row of `predict_proba_with_ds`'s output: the returned index
attains the row's maximum, and every smaller class index holds a strictly
smaller value, so ties resolve to the lowest class index. -/
theorem claim_C6 (s : Model) (preds : Option (List (List ℕ)))
    (probs : Option (List (List (List ℝ)))) (region : List (List ℕ))
    (dst : Option (List (List ℝ))) (mask : Option (List (List ℝ))) (q : ℕ)
    (hq : q < (predict_proba_with_ds s preds probs region dst mask).length)
    (hne : (predict_proba_with_ds s preds probs region dst mask).getD q [] ≠ []) :
    classify_with_ds s preds probs region dst mask
      = (predict_proba_with_ds s preds probs region dst mask).map
          (fun r => argmaxIdx r) ∧
    (classify_with_ds s preds probs region dst mask).getD q 0
      = argmaxIdx
          ((predict_proba_with_ds s preds probs region dst mask).getD q []) ∧
    (∀ j <
        ((predict_proba_with_ds s preds probs region dst mask).getD q []).length,
      ((predict_proba_with_ds s preds probs region dst mask).getD q []).getD j 0
        ≤ ((predict_proba_with_ds s preds probs region dst mask).getD
            q []).getD (argmaxIdx ((predict_proba_with_ds s preds probs region
              dst mask).getD q [])) 0) ∧
    (∀ j < argmaxIdx
        ((predict_proba_with_ds s preds probs region dst mask).getD q []),
      ((predict_proba_with_ds s preds probs region dst mask).getD q []).getD j 0
        < ((predict_proba_with_ds s preds probs region dst mask).getD
            q []).getD (argmaxIdx ((predict_proba_with_ds s preds probs region
              dst mask).getD q [])) 0) := by
  obtain ⟨-, h2, h3⟩ := argmaxIdx_spec
    ((predict_proba_with_ds s preds probs region dst mask).getD q []) hne
  refine ⟨rfl, ?_, h2, h3⟩
  unfold classify_with_ds
  exact getD_map_of_lt (fun r => argmaxIdx r) _ q hq 0 []

theorem claim_C5_witness :
    ((sum_votes_per_class (gatherRow ([[0]].getD 0 [])
          ((selectedInPredict mW1 [[0]] none).getD 0 []) 0) mW1.nClasses).sum
        = ((selectedInPredict mW1 [[0]] none).getD 0 []).length ∧
      ((predict_proba_with_ds mW1 (some [[0]]) none [[0]] none none).getD
        0 []).sum = 1) ∧
    ((predict_proba_with_ds mWS none (some [[[1, 0]]]) [[0]] none none).getD
      0 []).sum = 1 :=
  ⟨(claim_C5 mW1 [[0]] [] none none [[0]] none none 0).1 rfl (by decide)
      (by decide) (by decide),
    (claim_C5 mWS [] [[[1, 0]]] none none [[0]] none none 0).2 rfl (by decide)
      (by decide) (by decide) (by
        intro p hp
        have hp2 : p = [1, 0] := by simpa using hp
        subst hp2
        refine ⟨rfl, by norm_num⟩)⟩

theorem claim_C6_witness :
    classify_with_ds mW1 (some [[0]]) none [[0]] none none
      = (predict_proba_with_ds mW1 (some [[0]]) none [[0]] none none).map
          (fun r => argmaxIdx r) ∧
    (classify_with_ds mW1 (some [[0]]) none [[0]] none none).getD 0 0
      = argmaxIdx
          ((predict_proba_with_ds mW1 (some [[0]]) none [[0]] none none).getD
            0 []) ∧
    (∀ j <
        ((predict_proba_with_ds mW1 (some [[0]]) none [[0]] none none).getD
          0 []).length,
      ((predict_proba_with_ds mW1 (some [[0]]) none [[0]] none none).getD
          0 []).getD j 0
        ≤ ((predict_proba_with_ds mW1 (some [[0]]) none [[0]] none none).getD
            0 []).getD (argmaxIdx ((predict_proba_with_ds mW1 (some [[0]]) none
              [[0]] none none).getD 0 [])) 0) ∧
    (∀ j < argmaxIdx
        ((predict_proba_with_ds mW1 (some [[0]]) none [[0]] none none).getD
          0 []),
      ((predict_proba_with_ds mW1 (some [[0]]) none [[0]] none none).getD
          0 []).getD j 0
        < ((predict_proba_with_ds mW1 (some [[0]]) none [[0]] none none).getD
            0 []).getD (argmaxIdx ((predict_proba_with_ds mW1 (some [[0]]) none
              [[0]] none none).getD 0 [])) 0) :=
  claim_C6 mW1 (some [[0]]) none [[0]] none none 0 (by decide)
    (List.length_pos.mp (by decide))

/-- A DFP-enabled model with two classifiers that are both wrong on the
single DSEL sample, so both competences are 0. -/
def mC7 : Model :=
  { k := 1, nClassifiers := 2, nClasses := 2, N := 1, alpha := 1, DFP := true,
    voting := "hard", DSEL_target := [0], DSEL_processed := [[false, false]] }

/-- A DFP-enabled model with two classifiers that are both right on the
single DSEL sample, so both competences are positive. -/
def mC7W : Model :=
  { k := 1, nClassifiers := 2, nClasses := 2, N := 1, alpha := 1, DFP := true,
    voting := "hard", DSEL_target := [0], DSEL_processed := [[true, true]] }

/-- C7 counterexample: in `mC7` with mask `[[1, 0]]`, classifier 0 has mask
entry 1 (so at least `N = 1` classifiers are unmasked) and classifier 1 has
mask entry 0, yet the selected-classifier row computed inside
`predict_proba_with_ds` is `[1]`: the masked classifier is selected, because
its masked competence 0 ties with the unmasked classifier's competence 0 and
the tie resolves to the higher index. -/
theorem claim_C7_counterexample :
    mC7.DFP = true ∧ mC7.N = 1 ∧
    ([[(1 : ℝ), 0]].getD 0 []).getD 0 0 = 1 ∧
    ([[(1 : ℝ), 0]].getD 0 []).getD 1 0 = 0 ∧
    selectedInPredict mC7 [[0]] (some [[(1 : ℝ), 0]]) = [[1]] := by
  refine ⟨rfl, rfl, rfl, rfl, ?_⟩
  have hc : estimate_competence mC7 [[0]] none none = [[0, 0]] := by
    show [competenceRow mC7 [0]] = [[0, 0]]
    have : competenceRow mC7 [0] = [0, 0] := by
      unfold competenceRow
      rw [show List.range mC7.nClassifiers = [0, 1] from rfl]
      simp [correctFlag, mC7, rowRawWeights, l1normalize]
    rw [this]
  have hmask : maskMul [[(0 : ℝ), 0]] [[(1 : ℝ), 0]] = [[0, 0]] := by
    simp [maskMul]
  have hsel : selectRow 1 [(0 : ℝ), 0] = [1] := by
    unfold selectRow argsort
    rw [show List.range (List.length [(0 : ℝ), 0]) = [0, 1] from rfl]
    rw [show List.insertionSort (argRel [(0 : ℝ), 0]) [0, 1]
        = List.orderedInsert (argRel [(0 : ℝ), 0]) 0 [1] from rfl]
    have harg : argRel [(0 : ℝ), 0] 0 1 := Or.inr ⟨rfl, Nat.zero_le 1⟩
    rw [List.orderedInsert_of_le (argRel [(0 : ℝ), 0]) [] harg]
    rfl
  unfold selectedInPredict
  rw [if_pos (show mC7.DFP = true from rfl)]
  rw [show (some [[(1 : ℝ), 0]]).getD ([] : List (List ℝ)) = [[(1 : ℝ), 0]]
    from rfl]
  rw [hc, hmask]
  show [selectRow mC7.N [(0 : ℝ), 0]] = [[1]]
  rw [show mC7.N = 1 from rfl, hsel]

/-- positivity of a single-neighbor competence entry when the classifier is
correct on that neighbor. -/
lemma competence_pos_of_flag (s : Model) (j0 i : ℕ) (hi : i < s.nClassifiers)
    (hflag : (s.DSEL_processed.getD j0 []).getD i false = true) :
    0 < (competenceRow s [j0]).getD i 0 := by
  have hw : 0 < rawWeight s.alpha
      ((bincount s.DSEL_target).getD (s.DSEL_target.getD j0 0) 0) :=
    rawWeight_pos _ _
  set w : ℝ := rawWeight s.alpha
    ((bincount s.DSEL_target).getD (s.DSEL_target.getD j0 0) 0) with hwdef
  have hidx : (List.range s.nClassifiers).getD i 0 = i := by
    rw [List.getD_eq_getElem _ _ (by simpa using hi)]
    exact List.getElem_range _ _
  unfold competenceRow
  rw [getD_map_of_lt _ (List.range s.nClassifiers) i (by simpa using hi) 0 0,
    hidx]
  rw [show rowRawWeights s [j0] = [w] from rfl]
  unfold l1normalize
  simp only [List.map_cons, List.map_nil, List.sum_cons, List.sum_nil, add_zero,
    List.zipWith_cons_cons, List.zipWith_nil_right]
  rw [abs_of_pos hw, if_neg (ne_of_gt hw)]
  rw [show correctFlag s j0 i = 1 by unfold correctFlag; rw [if_pos hflag]]
  rw [one_mul]
  exact div_pos hw hw

/-- C7 amended: when DFP is enabled, for every sample in which at least `N`
classifiers have DFP-mask entry 1 **and strictly positive competence**, any
classifier whose mask entry for that sample is 0 is absent from that
sample's row of the selected-classifier matrix computed inside
`predict_proba_with_ds`. (The counterexample forces the added positivity
requirement: a masked classifier whose masked competence 0 ties with an
unmasked zero-competence classifier can still be selected.) -/
theorem claim_C7_amended (s : Model) (region : List (List ℕ))
    (mask : List (List ℝ)) (q i : ℕ)
    (hDFP : s.DFP = true) (hq : q < region.length) (hqm : q < mask.length)
    (hmlen : (mask.getD q []).length = s.nClassifiers)
    (hcount : s.N ≤ (List.range s.nClassifiers).countP fun j =>
      decide ((mask.getD q []).getD j 0 = 1 ∧
        0 < ((estimate_competence s region none none).getD q []).getD j 0))
    (hzero : (mask.getD q []).getD i 0 = 0) :
    i ∉ (selectedInPredict s region (some mask)).getD q [] := by
  intro hmem
  set accRow : List ℝ := (estimate_competence s region none none).getD q []
    with haccdef
  have hacclen : accRow.length = s.nClassifiers := by
    rw [haccdef]
    unfold estimate_competence
    rw [getD_map_of_lt _ region q hq [] []]
    unfold competenceRow
    simp
  have hmm : (maskMul (estimate_competence s region none none) mask).getD q []
      = List.zipWith (fun x y => x * y) accRow (mask.getD q []) := by
    unfold maskMul
    refine getD_zipWith_of_lt _ _ _ q ?_ [] [] []
    rw [List.length_zipWith]
    have : region.length = (estimate_competence s region none none).length := by
      unfold estimate_competence
      simp
    omega
  set maskedRow : List ℝ :=
    List.zipWith (fun x y => x * y) accRow (mask.getD q []) with hmrdef
  have hmrlen : maskedRow.length = s.nClassifiers := by
    rw [hmrdef, List.length_zipWith, hacclen, hmlen]
    omega
  have hsel : (selectedInPredict s region (some mask)).getD q []
      = selectRow s.N maskedRow := by
    unfold selectedInPredict
    rw [if_pos hDFP]
    rw [show (some mask).getD ([] : List (List ℝ)) = mask from rfl]
    unfold selectMatrix
    rw [getD_map_of_lt _ _ q (by
      unfold maskMul
      rw [List.length_zipWith]
      have : (estimate_competence s region none none).length = region.length := by
        unfold estimate_competence
        simp
      omega) [] []]
    rw [hmm]
  rw [hsel] at hmem
  have hmaskentry : ∀ j < s.nClassifiers,
      maskedRow.getD j 0 = accRow.getD j 0 * (mask.getD q []).getD j 0 := by
    intro j hj
    rw [hmrdef]
    refine getD_zipWith_of_lt _ _ _ j ?_ 0 0 0
    rw [List.length_zipWith, hacclen, hmlen]
    omega
  have hcount2 : s.N ≤ (List.range maskedRow.length).countP fun j =>
      decide (0 < maskedRow.getD j 0) := by
    rw [hmrlen]
    refine le_trans hcount (List.countP_mono_left ?_)
    intro j hjr hpj
    obtain ⟨hm1, hpos⟩ := of_decide_eq_true hpj
    have hj : j < s.nClassifiers := List.mem_range.mp hjr
    rw [decide_eq_true_eq, hmaskentry j hj, hm1, mul_one]
    exact hpos
  have hpos := selectRow_pos s.N maskedRow hcount2 i hmem
  have hilt : i < maskedRow.length := selectRow_mem s.N maskedRow hmem
  rw [hmaskentry i (by omega), hzero, mul_zero] at hpos
  exact lt_irrefl 0 hpos

theorem claim_C7_amended_witness :
    1 ∉ (selectedInPredict mC7W [[0]] (some [[(1 : ℝ), 0]])).getD 0 [] :=
  claim_C7_amended mC7W [[0]] [[(1 : ℝ), 0]] 0 1 rfl (by decide) (by decide)
    (by decide)
    (by
      rw [show List.range mC7W.nClassifiers = [0, 1] from rfl]
      rw [List.countP_cons, List.countP_cons, List.countP_nil]
      have h0 : ((([[(1 : ℝ), 0]].getD 0 []).getD 0 0 = 1 ∧
          0 < ((estimate_competence mC7W [[0]] none none).getD 0 []).getD 0 0)) := by
        refine ⟨rfl, ?_⟩
        show 0 < (competenceRow mC7W [0]).getD 0 0
        exact competence_pos_of_flag mC7W 0 0 (by decide) rfl
      rw [decide_eq_true h0]
      simp
      decide)
    rfl

/-- DES-MI parameters that fail none of the five conditions the original
claim lists, yet fail validation: soft voting requested while the pool does
not support probability output. -/
def pSoftNoProba : Params :=
  { nClassifiers := 3, pct_accuracy := 2/5, alpha := 9/10, alphaIsFloat := true,
    voting := "soft", poolSupportsProba := false, baseError := none }

/-- C8 counterexample: `pSoftNoProba` fails validation (with the spec's
UnsupportedCapability error) although none of the claim's five failure
conditions holds, refuting the claimed "fails if and only if one of the
five" biconditional. -/
theorem claim_C8_counterexample :
    (∃ e, validate_parameters pSoftNoProba = Except.error e) ∧
    ¬(⌊(pSoftNoProba.nClassifiers : ℚ) * pSoftNoProba.pct_accuracy⌋ < 1 ∨
      pSoftNoProba.alpha ≤ 0 ∨ pSoftNoProba.alphaIsFloat = false ∨
      pSoftNoProba.pct_accuracy ≤ 0 ∨ 1 < pSoftNoProba.pct_accuracy ∨
      (pSoftNoProba.voting ≠ "soft" ∧ pSoftNoProba.voting ≠ "hard")) := by
  have hN : computeN pSoftNoProba = 1 := by
    unfold computeN
    rw [pyInt_eq_floor _ (by norm_num [pSoftNoProba])]
    rw [show ((pSoftNoProba.nClassifiers : ℚ) * pSoftNoProba.pct_accuracy)
        = 6/5 by norm_num [pSoftNoProba]]
    norm_num
  constructor
  · refine ⟨PyError.unsupportedCapability, ?_⟩
    have hbase : validate_parameters pSoftNoProba = validate_rest pSoftNoProba := by
      unfold validate_parameters
      rw [show base_validate_parameters pSoftNoProba = none from rfl]
    rw [hbase]
    unfold validate_rest
    rw [hN]
    rw [if_neg (by decide), if_neg (by norm_num [pSoftNoProba]),
      if_neg (by simp [pSoftNoProba]), if_neg (by norm_num [pSoftNoProba]),
      if_neg (by simp [pSoftNoProba]), if_pos ⟨rfl, rfl⟩]
  · intro h
    rcases h with h | h | h | h | h | h
    · have hfl : ⌊(pSoftNoProba.nClassifiers : ℚ) * pSoftNoProba.pct_accuracy⌋
          = 1 := by
        rw [show ((pSoftNoProba.nClassifiers : ℚ) * pSoftNoProba.pct_accuracy)
            = 6/5 by norm_num [pSoftNoProba]]
        norm_num
      omega
    · norm_num [pSoftNoProba] at h
    · simp [pSoftNoProba] at h
    · norm_num [pSoftNoProba] at h
    · norm_num [pSoftNoProba] at h
    · exact h.1 rfl

/-- C8 amended: `_validate_parameters` fails exactly when the inherited
base-class validation fails, the computed selection size
`N = floor(n_classifiers * pct_accuracy)` is below 1, `alpha` is
non-positive, `alpha` is not a floating-point value (this case raising a
`TypeError` rather than a `ValueError` whenever the earlier checks pass),
`pct_accuracy` lies outside `(0, 1]`, `voting` is neither `'hard'` nor
`'soft'`, or `voting` is `'soft'` while the pool does not support
probability output (this case failing with UnsupportedCapability when the
earlier checks pass); on success the stored value `N_` is exactly that
floor. -/
theorem claim_C8_amended (p : Params) :
    ((∃ e, validate_parameters p = Except.error e) ↔
      (base_validate_parameters p ≠ none ∨
        ⌊(p.nClassifiers : ℚ) * p.pct_accuracy⌋ < 1 ∨ p.alpha ≤ 0 ∨
        p.alphaIsFloat = false ∨ p.pct_accuracy ≤ 0 ∨ 1 < p.pct_accuracy ∨
        (p.voting ≠ "soft" ∧ p.voting ≠ "hard") ∨
        (p.voting = "soft" ∧ check_predict_proba p = false))) ∧
    (base_validate_parameters p = none → 1 ≤ computeN p → 0 < p.alpha →
      p.alphaIsFloat = false →
      validate_parameters p = Except.error PyError.typeError) ∧
    (base_validate_parameters p = none → 1 ≤ computeN p → 0 < p.alpha →
      p.alphaIsFloat = true → 0 < p.pct_accuracy → p.pct_accuracy ≤ 1 →
      p.voting = "soft" → check_predict_proba p = false →
      validate_parameters p = Except.error PyError.unsupportedCapability) ∧
    (∀ n, validate_parameters p = Except.ok n →
      n = ⌊(p.nClassifiers : ℚ) * p.pct_accuracy⌋) := by
  cases hbase : base_validate_parameters p with
  | some e0 =>
    have hval : validate_parameters p = Except.error e0 := by
      unfold validate_parameters
      rw [hbase]
    refine ⟨⟨fun _ => Or.inl (by simp), fun _ => ⟨e0, hval⟩⟩,
      fun hb _ _ _ => by simp at hb,
      fun hb _ _ _ _ _ _ _ => by simp at hb,
      fun n hn => by rw [hval] at hn; simp at hn⟩
  | none =>
    have hval : validate_parameters p = validate_rest p := by
      unfold validate_parameters
      rw [hbase]
    rw [hval]
    unfold validate_rest
    by_cases h1 : computeN p ≤ 0
    · rw [if_pos h1]
      refine ⟨⟨fun _ => Or.inr (Or.inl ((pyInt_le_zero_iff _).mp h1)),
        fun _ => ⟨PyError.valueError, rfl⟩⟩,
        fun _ hN _ _ => absurd h1 (by omega),
        fun _ hN _ _ _ _ _ _ => absurd h1 (by omega),
        fun n hn => by simp at hn⟩
    · rw [if_neg h1]
      by_cases h2 : p.alpha ≤ 0
      · rw [if_pos h2]
        refine ⟨⟨fun _ => Or.inr (Or.inr (Or.inl h2)),
          fun _ => ⟨PyError.valueError, rfl⟩⟩,
          fun _ _ hα _ => absurd hα (not_lt.mpr h2),
          fun _ _ hα _ _ _ _ _ => absurd hα (not_lt.mpr h2),
          fun n hn => by simp at hn⟩
      · rw [if_neg h2]
        by_cases h3 : p.alphaIsFloat = false
        · rw [if_pos h3]
          refine ⟨⟨fun _ => Or.inr (Or.inr (Or.inr (Or.inl h3))),
            fun _ => ⟨PyError.typeError, rfl⟩⟩,
            fun _ _ _ _ => rfl,
            fun _ _ _ hf _ _ _ _ => by simp [h3] at hf,
            fun n hn => by simp at hn⟩
        · rw [if_neg h3]
          by_cases h4 : p.pct_accuracy ≤ 0 ∨ 1 < p.pct_accuracy
          · rw [if_pos h4]
            refine ⟨⟨fun _ => ?_, fun _ => ⟨PyError.valueError, rfl⟩⟩,
              fun _ _ _ hf => absurd hf h3,
              fun _ _ _ _ hp1 hp2 _ _ => ?_,
              fun n hn => by simp at hn⟩
            · rcases h4 with h4 | h4
              · exact Or.inr (Or.inr (Or.inr (Or.inr (Or.inl h4))))
              · exact Or.inr (Or.inr (Or.inr (Or.inr (Or.inr (Or.inl h4)))))
            · rcases h4 with h4 | h4
              · exact absurd hp1 (not_lt.mpr h4)
              · exact absurd h4 (not_lt.mpr hp2)
          · rw [if_neg h4]
            by_cases h5 : ¬ (p.voting = "soft" ∨ p.voting = "hard")
            · rw [if_pos h5]
              refine ⟨⟨fun _ => Or.inr (Or.inr (Or.inr (Or.inr (Or.inr
                  (Or.inr (Or.inl ?_)))))),
                fun _ => ⟨PyError.valueError, rfl⟩⟩,
                fun _ _ _ hf => absurd hf h3,
                fun _ _ _ _ _ _ hvs _ => absurd (Or.inl hvs) h5,
                fun n hn => by simp at hn⟩
              push_neg at h5
              exact h5
            · rw [if_neg h5]
              by_cases h6 : p.voting = "soft" ∧ check_predict_proba p = false
              · rw [if_pos h6]
                refine ⟨⟨fun _ => Or.inr (Or.inr (Or.inr (Or.inr (Or.inr
                    (Or.inr (Or.inr h6)))))),
                  fun _ => ⟨PyError.unsupportedCapability, rfl⟩⟩,
                  fun _ _ _ hf => absurd hf h3,
                  fun _ _ _ _ _ _ _ _ => rfl,
                  fun n hn => by simp at hn⟩
              · rw [if_neg h6]
                have h4p := not_or.mp h4
                have hpct : 0 < p.pct_accuracy := not_le.mp h4p.1
                have hge : (0 : ℚ) ≤ (p.nClassifiers : ℚ) * p.pct_accuracy :=
                  mul_nonneg (Nat.cast_nonneg _) hpct.le
                have hfl : computeN p
                    = ⌊(p.nClassifiers : ℚ) * p.pct_accuracy⌋ :=
                  pyInt_eq_floor _ hge
                refine ⟨⟨fun he => ?_, fun hdis => ?_⟩,
                  fun _ _ _ hf => absurd hf h3,
                  fun _ _ _ _ _ _ hvs hcp => absurd ⟨hvs, hcp⟩ h6,
                  fun n hn => ?_⟩
                · rcases he with ⟨e, he⟩
                  simp at he
                · exfalso
                  rcases hdis with hd | hd | hd | hd | hd | hd | hd | hd
                  · exact hd rfl
                  · exact h1 ((pyInt_le_zero_iff _).mpr hd)
                  · exact h2 hd
                  · exact h3 hd
                  · exact h4 (Or.inl hd)
                  · exact h4 (Or.inr hd)
                  · push_neg at h5
                    rcases h5 with h5 | h5
                    · exact hd.1 h5
                    · exact hd.2 h5
                  · exact h6 hd
                · have hn2 : n = computeN p := by
                    injection hn with h
                    exact h.symm
                  rw [hn2, hfl]

/-- valid parameters: 3 classifiers, `pct_accuracy = 2/5`, float
`alpha = 9/10`, hard voting, base checks passing; `N = floor(3 * 2/5) = 1`. -/
def pGood : Params :=
  { nClassifiers := 3, pct_accuracy := 2/5, alpha := 9/10, alphaIsFloat := true,
    voting := "hard", poolSupportsProba := true, baseError := none }

/-- the same parameters with a non-float `alpha`. -/
def pBad : Params :=
  { nClassifiers := 3, pct_accuracy := 2/5, alpha := 9/10, alphaIsFloat := false,
    voting := "hard", poolSupportsProba := true, baseError := none }

theorem claim_C8_amended_witness :
    validate_parameters pGood = Except.ok 1 ∧
    (1 : ℤ) = ⌊(pGood.nClassifiers : ℚ) * pGood.pct_accuracy⌋ ∧
    validate_parameters pBad = Except.error PyError.typeError ∧
    validate_parameters pSoftNoProba
      = Except.error PyError.unsupportedCapability := by
  have hNg : computeN pGood = 1 := by
    unfold computeN
    rw [pyInt_eq_floor _ (by norm_num [pGood])]
    rw [show ((pGood.nClassifiers : ℚ) * pGood.pct_accuracy) = 6/5 by
      norm_num [pGood]]
    norm_num
  have hNb : computeN pBad = 1 := by
    unfold computeN
    rw [pyInt_eq_floor _ (by norm_num [pBad])]
    rw [show ((pBad.nClassifiers : ℚ) * pBad.pct_accuracy) = 6/5 by
      norm_num [pBad]]
    norm_num
  have hNs : computeN pSoftNoProba = 1 := by
    unfold computeN
    rw [pyInt_eq_floor _ (by norm_num [pSoftNoProba])]
    rw [show ((pSoftNoProba.nClassifiers : ℚ) * pSoftNoProba.pct_accuracy)
        = 6/5 by norm_num [pSoftNoProba]]
    norm_num
  have hvalGood : validate_parameters pGood = Except.ok 1 := by
    have hbase : validate_parameters pGood = validate_rest pGood := by
      unfold validate_parameters
      rw [show base_validate_parameters pGood = none from rfl]
    rw [hbase]
    unfold validate_rest
    rw [hNg]
    rw [if_neg (by decide), if_neg (by norm_num [pGood]),
      if_neg (by simp [pGood]), if_neg (by norm_num [pGood]),
      if_neg (by simp [pGood]), if_neg (by simp [pGood, check_predict_proba])]
  refine ⟨hvalGood, (claim_C8_amended pGood).2.2.2 1 hvalGood, ?_, ?_⟩
  · exact (claim_C8_amended pBad).2.1 rfl (by omega) (by norm_num [pBad]) rfl
  · exact (claim_C8_amended pSoftNoProba).2.2.1 rfl (by omega)
      (by norm_num [pSoftNoProba]) rfl (by norm_num [pSoftNoProba])
      (by norm_num [pSoftNoProba]) rfl rfl

end DESMI
